import Mathlib

/-!
Verification of the flag-wars game server (`src/server.ts`).

The authoritative session state machine of `server.ts` is embedded shallowly:
the socket.io handlers (`join-game`, `start-game`, `player-move`,
`reset-game`, `request-restart`, `disconnect`), the timer callbacks
(`spawnShield`, `runArchivingWave`) and the helpers (`endGame`, `resetGame`)
become pure Lean functions on an explicit `GameState`.  JavaScript's
`Map<string, Player>` (which iterates in insertion order) is modelled as an
insertion-ordered list of players keyed by `id`; `socket.id` strings become
`Nat` identifiers.  Calls to `Math.random()` become explicit parameters:
random spawn coordinates are arguments, the random comparator shuffle
`sort(() => Math.random() - 0.5)` (which returns some permutation of its
input) becomes a function parameter constrained to permute its input in the
theorems, and `Math.floor(Math.random() * len)` becomes an arbitrary index
reduced modulo `len`.  JavaScript numbers used by the handlers appear only in
exact comparisons here (distances compared squared, `max` on integers), so
they are modelled as `Int`/`Nat`.
-/

namespace FlagWars

inductive GameStatus where
  | waiting
  | playing
  | finished
deriving DecidableEq

/-- The `Player` interface of `server.ts`. -/
structure Player where
  id : Nat
  name : String
  isHost : Bool
  isAlive : Bool
  shields : Nat
  survivalTime : Nat
  eliminatedAt : Option Nat
  x : Int
  y : Int
  color : String
deriving DecidableEq

/-- The `Shield` interface of `server.ts`. -/
structure Shield where
  id : Nat
  x : Int
  y : Int
deriving DecidableEq

/-- The `GameState` interface of `server.ts`; `players` is insertion-ordered
like the JavaScript `Map`. -/
structure GameState where
  players : List Player
  gameStatus : GameStatus
  startTime : Option Nat
  currentRound : Nat
  archivingInterval : Nat
  winner : Option Player
  eliminationOrder : List Player
  shields : List Shield
deriving DecidableEq

/-- The `COLORS` palette of `server.ts`. -/
def COLORS : List String :=
  ["#FF6B6B", "#4ECDC4", "#45B7D1", "#F7DC6F", "#BB8FCE", "#85C88A", "#FFB6C1", "#FF9F43"]

/-- The initial `gameState` value of `server.ts`. -/
def initialGameState : GameState :=
  { players := [], gameStatus := GameStatus.waiting, startTime := none, currentRound := 0,
    archivingInterval := 10000, winner := none, eliminationOrder := [], shields := [] }

/-- Placeholder used for the (unreachable) out-of-bounds array access. -/
def defaultPlayer : Player :=
  { id := 0, name := "", isHost := false, isAlive := false, shields := 0, survivalTime := 0,
    eliminatedAt := none, x := 0, y := 0, color := "" }

/-- `gameState.players.get(id)` on the insertion-ordered map. -/
def findPlayer (ps : List Player) (pid : Nat) : Option Player :=
  ps.find? (fun q => q.id == pid)

/-- `gameState.players.set(id, p)`: replace in place if the key is present
(JavaScript `Map.set` keeps the original insertion position), else append. -/
def mapSet (ps : List Player) (p : Player) : List Player :=
  if ps.any (fun q => q.id == p.id) then ps.map (fun q => if q.id == p.id then p else q)
  else ps ++ [p]

/-- Mutation of the player stored under `pid` (JavaScript mutates the object
held in the map in place). -/
def updPlayer (ps : List Player) (pid : Nat) (f : Player → Player) : List Player :=
  ps.map (fun q => if q.id == pid then f q else q)

/-- Number of currently alive participants. -/
def aliveCount (s : GameState) : Nat :=
  (s.players.filter (fun p => p.isAlive)).length

/-- The `join-game` handler.  `rx`/`ry` are the random spawn coordinates and
`gname` the randomly generated fallback name. -/
def joinGame (sid : Nat) (pname gname : String) (rx ry : Int) (s : GameState) : GameState :=
  let isHost := s.players.length == 0
  let player : Player :=
    { id := sid, name := if pname = "" then gname else pname, isHost := isHost,
      isAlive := true, shields := 0, survivalTime := 0, eliminatedAt := none,
      x := rx, y := ry, color := COLORS.getD (s.players.length % COLORS.length) "" }
  { s with players := mapSet s.players player }

/-- The `start-game` handler (its state mutation; the timer it starts is
modelled by the separate wave/spawn steps). -/
def startGame (sid : Nat) (now : Nat) (s : GameState) : GameState :=
  match findPlayer s.players sid with
  | none => s
  | some player =>
    if player.isHost = false ∨ s.gameStatus = GameStatus.playing then s
    else
      { s with
        gameStatus := GameStatus.playing, startTime := some now, currentRound := 0,
        winner := none, eliminationOrder := [],
        players := s.players.map (fun p =>
          { p with isAlive := true, shields := 1, survivalTime := 0, eliminatedAt := none }) }

/-- Events emitted by the `player-move` handler. -/
inductive GEvent where
  | shieldCollected (n : Nat)
  | gameStateUpdate
deriving DecidableEq

/-- The `player-move` handler, returning the new state together with the
events it emits.  `distance < 30` on the square root is equivalent to the
squared comparison used here. -/
def playerMoveFull (sid : Nat) (mx my : Int) (s : GameState) : GameState × List GEvent :=
  match findPlayer s.players sid with
  | none => (s, [])
  | some player =>
    if player.isAlive = true ∧ s.gameStatus = GameStatus.playing then
      let s1 := { s with players := updPlayer s.players sid (fun q => { q with x := mx, y := my }) }
      match s1.shields.findIdx? (fun sh =>
          (sh.x - mx) * (sh.x - mx) + (sh.y - my) * (sh.y - my) < 900) with
      | some i =>
        ({ s1 with
            players := updPlayer s1.players sid (fun q => { q with shields := min (q.shields + 1) 3 }),
            shields := s1.shields.eraseIdx i },
         [GEvent.shieldCollected (min (player.shields + 1) 3), GEvent.gameStateUpdate])
      | none => (s1, [GEvent.gameStateUpdate])
    else (s, [])

/-- State effect of the `player-move` handler. -/
def playerMove (sid : Nat) (mx my : Int) (s : GameState) : GameState :=
  (playerMoveFull sid mx my s).1

/-- The precondition under which a `player-move` message is accepted. -/
def moveAccepted (sid : Nat) (s : GameState) : Prop :=
  match findPlayer s.players sid with
  | none => False
  | some player => player.isAlive = true ∧ s.gameStatus = GameStatus.playing

instance (sid : Nat) (s : GameState) : Decidable (moveAccepted sid s) := by
  unfold moveAccepted
  cases findPlayer s.players sid <;> simp <;> infer_instance

/-- The `resetGame` helper of `server.ts`. -/
def resetGame (s : GameState) : GameState :=
  { s with
    gameStatus := GameStatus.waiting, startTime := none, currentRound := 0,
    winner := none, eliminationOrder := [], shields := [],
    players := s.players.map (fun p =>
      { p with isAlive := true, shields := 0, survivalTime := 0, eliminatedAt := none }) }

/-- The `reset-game` handler. -/
def resetGameHandler (sid : Nat) (s : GameState) : GameState :=
  match findPlayer s.players sid with
  | none => s
  | some player => if player.isHost = true then resetGame s else s

/-- The `request-restart` handler. -/
def requestRestart (s : GameState) : GameState :=
  if s.gameStatus ≠ GameStatus.finished then s
  else
    { s with
      gameStatus := GameStatus.waiting, startTime := none, currentRound := 0,
      winner := none, eliminationOrder := [], shields := [],
      players := s.players.map (fun p =>
        { p with isAlive := true, shields := 0, survivalTime := 0, eliminatedAt := none }) }

/-- The `disconnect` handler.  `players.values().next().value` is the first
entry in insertion order. -/
def disconnect (sid : Nat) (s : GameState) : GameState :=
  match findPlayer s.players sid with
  | none => s
  | some player =>
    let ps := s.players.filter (fun q => q.id != sid)
    let ps2 :=
      if player.isHost = true ∧ 0 < ps.length then
        match ps with
        | [] => ps
        | q :: rest => { q with isHost := true } :: rest
      else ps
    let s1 := { s with players := ps2 }
    if ps2.length = 0 then resetGame s1 else s1

/-- The `spawnShield` timer callback; `rid`, `rx`, `ry` are its random id and
coordinates. -/
def spawnShield (rid : Nat) (rx ry : Int) (s : GameState) : GameState :=
  if s.gameStatus ≠ GameStatus.playing then s
  else
    let alivePlayers := (s.players.filter (fun p => p.isAlive)).length
    let maxShields := min (3 + alivePlayers / 2) 12
    if s.shields.length < maxShields then
      { s with shields := s.shields ++ [{ id := rid, x := rx, y := ry }] }
    else s

/-- `Math.ceil(n * 0.3)` for the participant counts reached here: the IEEE
double product `n * 0.3` rounds to the double nearest `3n/10`, so its ceiling
equals the exact ceiling of `3n/10`. -/
def ceil30 (n : Nat) : Nat := (3 * n + 9) / 10

/-- The elimination record written by `runArchivingWave` for a caught player. -/
def killP (round now startT : Nat) (p : Player) : Player :=
  { p with isAlive := false, survivalTime := now - startT, eliminatedAt := some round }

/-- Resolution of a single wave target (the body of `targetPlayers.forEach`),
acting on the players list and the elimination order.  The target is looked
up by id in the current list, mirroring the in-place mutation of the shared
player object in JavaScript. -/
def resolveOne (round now startT : Nat) (acc : List Player × List Player) (tid : Nat) :
    List Player × List Player :=
  match acc.1.find? (fun q => q.id == tid) with
  | none => acc
  | some p =>
    if 0 < p.shields then
      (updPlayer acc.1 tid (fun q => { q with shields := q.shields - 1 }), acc.2)
    else
      (updPlayer acc.1 tid (fun _ => killP round now startT p),
       acc.2 ++ [killP round now startT p])

/-- `targetPlayers.forEach(...)` over the list of target ids. -/
def resolveTargets (round now startT : Nat) (acc : List Player × List Player)
    (tids : List Nat) : List Player × List Player :=
  tids.foldl (resolveOne round now startT) acc

/-- The `endGame` helper of `server.ts`.  Sets the status to finished; when
exactly one participant is alive it becomes the winner and its
`survivalTime` is finalized (mutating `winner.survivalTime` mutates the
shared player object, so the map entry is updated as well). -/
def endGame (now : Nat) (s : GameState) : GameState :=
  match s.players.filter (fun p => p.isAlive) with
  | [w] =>
    { s with
      gameStatus := GameStatus.finished,
      winner := some { w with survivalTime := now - s.startTime.getD 0 },
      players := updPlayer s.players w.id
        (fun _ => { w with survivalTime := now - s.startTime.getD 0 }) }
  | _ => { s with gameStatus := GameStatus.finished }

/-- The random outcomes consumed by one archiving wave: the comparator-shuffle
of the shield-less list and the index of the forced pick. -/
structure WaveChoice where
  sortR : List Player → List Player
  pick : Nat

/-- The `runArchivingWave` timer callback.  Returns the new state together
with the delay passed to `setTimeout` for the next wave (`none` when no next
wave is scheduled). -/
def runArchivingWaveFull (σ : WaveChoice) (now : Nat) (s : GameState) :
    GameState × Option Int :=
  if s.gameStatus ≠ GameStatus.playing then (s, (none : Option Int))
  else
    let s1 := { s with currentRound := s.currentRound + 1 }
    let alivePlayers := s1.players.filter (fun p => p.isAlive)
    if alivePlayers.length ≤ 1 then (endGame now s1, (none : Option Int))
    else
      let archivingSpeed : Int := max (10000 - (s1.currentRound : Int) * 1000) 3000
      let playersToArchive := ceil30 alivePlayers.length
      let targets0 := (σ.sortR (alivePlayers.filter (fun p => p.shields == 0))).take playersToArchive
      let targetPlayers : List Player :=
        if targets0.length = 0 ∧ 1 < alivePlayers.length then
          [alivePlayers.getD (σ.pick % alivePlayers.length) defaultPlayer]
        else targets0
      let res := resolveTargets s1.currentRound now (s1.startTime.getD 0)
        (s1.players, s1.eliminationOrder) (targetPlayers.map (fun p => p.id))
      let s2 : GameState := { s1 with players := res.1, eliminationOrder := res.2 }
      let remainingAlive := s2.players.filter (fun p => p.isAlive)
      if remainingAlive.length ≤ 1 then ((endGame now s2, none) : GameState × Option Int)
      else (s2, some archivingSpeed)

/-- State effect of one archiving wave. -/
def runArchivingWave (σ : WaveChoice) (now : Nat) (s : GameState) : GameState :=
  (runArchivingWaveFull σ now s).1

/-- One handler or timer step of the session state machine. -/
inductive Step where
  | join (sid : Nat) (pname gname : String) (rx ry : Int)
  | start (sid now : Nat)
  | move (sid : Nat) (mx my : Int)
  | reset (sid : Nat)
  | restart
  | disc (sid : Nat)
  | wave (σ : WaveChoice) (now : Nat)
  | spawn (rid : Nat) (rx ry : Int)

/-- Interpretation of a step. -/
def applyStep (t : Step) (s : GameState) : GameState :=
  match t with
  | Step.join sid pname gname rx ry => joinGame sid pname gname rx ry s
  | Step.start sid now => startGame sid now s
  | Step.move sid mx my => playerMove sid mx my s
  | Step.reset sid => resetGameHandler sid s
  | Step.restart => requestRestart s
  | Step.disc sid => disconnect sid s
  | Step.wave σ now => runArchivingWave σ now s
  | Step.spawn rid rx ry => spawnShield rid rx ry s

/-- Interpretation of a sequence of steps. -/
def applySteps (ts : List Step) (s : GameState) : GameState :=
  ts.foldl (fun s t => applyStep t s) s

/-- The per-participant state the optimized server's `player-move` handler
reads and writes (`src/deploy.sh`, optimized server, lines 267–311): the
stored position and `lastUpdate`, the timestamp of the last accepted
update. -/
structure MoveCtx where
  x : Int
  y : Int
  lastUpdate : Nat
deriving DecidableEq

/-- The position/batch bookkeeping of the optimized server's `player-move`
handler for a message that passed the exists/alive/Playing guard
(`src/deploy.sh` lines 275–306): only when
`distance > POSITION_THRESHOLD || timeSinceLastUpdate > 100` (with
`POSITION_THRESHOLD = 5`; `distance > 5` is compared squared as
`25 < distance²`) does it write the position and `lastUpdate` and queue a
batch update for the participant; otherwise it does nothing at all.
Returns the new context and whether a batch update was queued (the shield
scan inside the same branch is the collection already embedded for the
`player-move` handler and does not affect these fields). -/
def setPosition (now : Nat) (mx my : Int) (c : MoveCtx) : MoveCtx × Bool :=
  if 25 < (c.x - mx) * (c.x - mx) + (c.y - my) * (c.y - my) ∨ 100 < now - c.lastUpdate then
    ({ x := mx, y := my, lastUpdate := now }, true)
  else
    (c, false)

/-- Contribution of one player to the elimination potential of a session:
an alive player must be hit `shields + 1` times by waves before being
eliminated; a dead player contributes nothing. -/
def potentialP (p : Player) : Nat :=
  if p.isAlive then p.shields + 1 else 0

/-- Elimination potential of a session: total wave hits needed to eliminate
every currently alive participant, assuming no shield is re-collected. -/
def potential (s : GameState) : Nat :=
  (s.players.map potentialP).sum

/-- Every participant's shield count is at most 3 (it is a `Nat`, hence also
at least 0). -/
def shieldsOk (s : GameState) : Bool :=
  s.players.all (fun p => decide (p.shields ≤ 3))

/-- The host invariant: exactly one host in a non-empty registry, zero hosts
in an empty one. -/
def HostInv (s : GameState) : Prop :=
  s.players.countP (fun p => p.isHost) = if s.players.isEmpty then 0 else 1

/-- Registry states reachable from the initial state by `join-game` messages
of fresh connections (a connection id not currently registered) and
`disconnect` events. -/
inductive RegReachable : GameState → Prop where
  | init : RegReachable initialGameState
  | join : ∀ (s : GameState) (sid : Nat) (pname gname : String) (rx ry : Int),
      RegReachable s → findPlayer s.players sid = none →
      RegReachable (joinGame sid pname gname rx ry s)
  | leave : ∀ (s : GameState) (sid : Nat),
      RegReachable s → RegReachable (disconnect sid s)

/-- The status transitions a single handler or timer step can produce. -/
def statusPairs : List (GameStatus × GameStatus) :=
  [(GameStatus.waiting, GameStatus.waiting), (GameStatus.waiting, GameStatus.playing),
   (GameStatus.playing, GameStatus.playing), (GameStatus.playing, GameStatus.waiting),
   (GameStatus.playing, GameStatus.finished), (GameStatus.finished, GameStatus.finished),
   (GameStatus.finished, GameStatus.waiting), (GameStatus.finished, GameStatus.playing)]

/-- The run eventually reaches the Finished status. -/
def reachesFinished (run : Nat → GameState) : Prop :=
  ∃ k, (run k).gameStatus = GameStatus.finished

/-- Iterate archiving waves, consuming one `WaveChoice` per wave. -/
def waveIter (σs : Nat → WaveChoice) (now : Nat) : Nat → GameState → GameState
  | 0, s => s
  | Nat.succ k, s =>
    waveIter (fun i => σs (i + 1)) now k (runArchivingWave (σs 0) now s)

/-- The session reaches Finished within `n` wave rounds. -/
def terminatesWithin (σs : Nat → WaveChoice) (now : Nat) (s : GameState) (n : Nat) : Prop :=
  ∃ k, k ≤ n ∧ (waveIter σs now k s).gameStatus = GameStatus.finished

/-- A concrete wave-randomness outcome: the comparator shuffle leaves the
order unchanged and the forced pick takes index 0. -/
def waveId : WaveChoice := { sortR := fun l => l, pick := 0 }

/-- Lobby of two players right after the host started the game
(both alive with 1 shield). -/
def sW3 : GameState :=
  applySteps
    [Step.join 1 "A" "g" 100 100, Step.join 2 "B" "g" 200 200, Step.start 1 0]
    initialGameState

/-- A generic shield-less alive participant. -/
def zPlayer (i : Nat) : Player :=
  { id := i, name := "p", isHost := false, isAlive := true, shields := 0, survivalTime := 0,
    eliminatedAt := none, x := 0, y := 0, color := "" }

/-- Ten shield-less alive participants in a Playing session. -/
def s10 : GameState :=
  { players := [zPlayer 1, zPlayer 2, zPlayer 3, zPlayer 4, zPlayer 5, zPlayer 6, zPlayer 7,
      zPlayer 8, zPlayer 9, zPlayer 10],
    gameStatus := GameStatus.playing, startTime := some 0, currentRound := 0,
    archivingInterval := 10000, winner := none, eliminationOrder := [], shields := [] }

/-- Two shield-less alive participants in a Playing session. -/
def s2z : GameState :=
  { players := [zPlayer 1, zPlayer 2],
    gameStatus := GameStatus.playing, startTime := some 0, currentRound := 0,
    archivingInterval := 10000, winner := none, eliminationOrder := [], shields := [] }

/-- A finished two-player session with the host still registered: two joins,
the host starts, the first wave consumes the forced pick's shield, the second
wave eliminates the host and ends the game. -/
def sF : GameState :=
  applySteps
    [Step.join 1 "A" "g" 10 10, Step.join 2 "B" "g" 20 20, Step.start 1 0,
     Step.wave waveId 1, Step.wave waveId 2]
    initialGameState

/-- The step sequence building `advStart`: two players join, the host starts
the game, and each player collects two spawned shields, reaching the shield
cap of 3. -/
def advSetup : List Step :=
  [Step.join 1 "A" "g" 100 100, Step.join 2 "B" "g" 200 200, Step.start 1 0,
   Step.spawn 90 100 100, Step.move 1 100 100, Step.spawn 91 100 100, Step.move 1 100 100,
   Step.spawn 92 200 200, Step.move 2 200 200, Step.spawn 93 200 200, Step.move 2 200 200]

/-- A Playing session with two alive participants both holding the maximal 3
shields (reachable: it equals `applySteps advSetup initialGameState`). -/
def advStart : GameState :=
  { players :=
      [{ id := 1, name := "A", isHost := true, isAlive := true, shields := 3, survivalTime := 0,
         eliminatedAt := none, x := 100, y := 100, color := "#FF6B6B" },
       { id := 2, name := "B", isHost := false, isAlive := true, shields := 3, survivalTime := 0,
         eliminatedAt := none, x := 200, y := 200, color := "#4ECDC4" }],
    gameStatus := GameStatus.playing, startTime := some 0, currentRound := 0,
    archivingInterval := 10000, winner := none, eliminationOrder := [], shields := [] }

/-- The host participant of the adversarial session, with `sh` shields. -/
def advP1 (sh : Nat) : Player :=
  { id := 1, name := "A", isHost := true, isAlive := true, shields := sh,
    survivalTime := 0, eliminatedAt := none, x := 100, y := 100, color := "#FF6B6B" }

/-- The second participant of the adversarial session (3 shields). -/
def advP2 : Player :=
  { id := 2, name := "B", isHost := false, isAlive := true, shields := 3,
    survivalTime := 0, eliminatedAt := none, x := 200, y := 200, color := "#4ECDC4" }

/-- The adversarial session parametrised by the host's shield count, the
current round, and the uncollected shields on the map. -/
def advState (sh1 r : Nat) (shs : List Shield) : GameState :=
  { players := [advP1 sh1, advP2], gameStatus := GameStatus.playing, startTime := some 0,
    currentRound := r, archivingInterval := 10000, winner := none,
    eliminationOrder := [], shields := shs }

/-- Adversarial shield maintenance between two waves: a shield spawns on each
player's position and the player moves (in place) to collect it, restoring
any shield a wave consumed (collection clamps at 3). -/
def refill (s : GameState) : GameState :=
  playerMove 2 200 200 (spawnShield 93 200 200
    (playerMove 1 100 100 (spawnShield 92 100 100 s)))

/-- The adversarially shielded run: from `advStart`, each round runs one
archiving wave and then the players re-collect shields back to the cap. -/
def advRun : Nat → GameState
  | 0 => advStart
  | Nat.succ k => refill (runArchivingWave waveId 0 (advRun k))

/-! ### Auxiliary list lemmas -/

theorem countP_eq_sum (P : Player → Bool) (l : List Player) :
    l.countP P = (l.map (fun a => if P a then 1 else 0)).sum := by
  induction l with
  | nil => rfl
  | cons a t ih => simp only [List.countP_cons, List.map_cons, List.sum_cons, ih]; omega

theorem mem_unique_of_nodup {ps : List Player} {p q : Player}
    (hnd : (ps.map Player.id).Nodup) (hp : p ∈ ps) (hq : q ∈ ps) (h : p.id = q.id) : p = q :=
  List.inj_on_of_nodup_map hnd hp hq h

theorem find?_eq_some_of_nodup {ps : List Player} {p : Player}
    (hnd : (ps.map Player.id).Nodup) (hp : p ∈ ps) :
    ps.find? (fun q => q.id == p.id) = some p := by
  induction ps with
  | nil => cases hp
  | cons a t ih =>
    rcases List.mem_cons.mp hp with h | h
    · subst h
      simp [List.find?]
    · have hne : a.id ≠ p.id := by
        intro he
        have : p.id ∈ t.map Player.id := List.mem_map_of_mem Player.id h
        rw [← he] at this
        exact (List.nodup_cons.mp (by simpa using hnd)).1 this
      have : (a.id == p.id) = false := by simpa using hne
      simp only [List.find?, this]
      exact ih (List.nodup_cons.mp (by simpa using hnd)).2 h

theorem updPlayer_map_id {ps : List Player} {pid : Nat} {f : Player → Player}
    (hf : ∀ q : Player, q.id = pid → (f q).id = q.id) :
    (updPlayer ps pid f).map Player.id = ps.map Player.id := by
  unfold updPlayer
  rw [List.map_map]
  refine List.map_congr_left (fun q _ => ?_)
  by_cases h : q.id = pid
  · simp only [Function.comp, h, beq_self_eq_true, if_true]
    exact (hf q h).trans h
  · simp [Function.comp, h]

theorem sum_map_single_upd {ps : List Player} {t v : Player}
    (hnd : (ps.map Player.id).Nodup) (ht : t ∈ ps) (F : Player → Nat) :
    ((ps.map (fun q => if q.id == t.id then v else q)).map F).sum + F t
      = (ps.map F).sum + F v := by
  induction ps with
  | nil => cases ht
  | cons a rest ih =>
    have hnd2 : a.id ∉ rest.map Player.id ∧ (rest.map Player.id).Nodup := by
      rw [List.map_cons] at hnd
      exact List.nodup_cons.mp hnd
    by_cases hid : a.id = t.id
    · have hat : a = t := by
        rcases List.mem_cons.mp ht with h | h
        · exact h.symm
        · exact absurd (hid ▸ List.mem_map_of_mem Player.id h) hnd2.1
      have hrest : rest.map (fun q => if q.id == t.id then v else q) = rest := by
        refine (List.map_congr_left (fun q hq => ?_)).trans (List.map_id rest)
        have hq2 : q.id ≠ t.id := by
          intro he
          exact hnd2.1 (hid ▸ he ▸ List.mem_map_of_mem Player.id hq)
        simp [hq2]
      simp only [List.map_cons, hid, beq_self_eq_true, if_true, hrest, List.sum_cons, hat]
      omega
    · have htr : t ∈ rest := by
        rcases List.mem_cons.mp ht with h | h
        · exact absurd (h ▸ rfl) (Ne.symm hid)
        · exact h
      have := ih hnd2.2 htr
      simp [hid] at this ⊢
      omega

theorem countP_single_upd {ps : List Player} {t v : Player}
    (hnd : (ps.map Player.id).Nodup) (ht : t ∈ ps) (P : Player → Bool) :
    (ps.map (fun q => if q.id == t.id then v else q)).countP P + (if P t then 1 else 0)
      = ps.countP P + (if P v then 1 else 0) := by
  rw [countP_eq_sum, countP_eq_sum]
  exact sum_map_single_upd hnd ht (fun a => if P a then 1 else 0)

theorem countP_remove {ps : List Player} {p : Player} (P : Player → Bool)
    (hnd : (ps.map Player.id).Nodup) (hp : p ∈ ps) :
    (ps.filter (fun q => q.id != p.id)).countP P + (if P p then 1 else 0) = ps.countP P := by
  induction ps with
  | nil => cases hp
  | cons a rest ih =>
    have hnd2 : a.id ∉ rest.map Player.id ∧ (rest.map Player.id).Nodup := by
      rw [List.map_cons] at hnd
      exact List.nodup_cons.mp hnd
    by_cases hid : a.id = p.id
    · have hap : a = p := by
        rcases List.mem_cons.mp hp with h | h
        · exact h.symm
        · exact absurd (hid ▸ List.mem_map_of_mem Player.id h) hnd2.1
      have hrest : rest.filter (fun q => q.id != p.id) = rest := by
        refine List.filter_eq_self.mpr (fun q hq => ?_)
        have hq2 : q.id ≠ p.id := by
          intro he
          exact hnd2.1 (hid ▸ he ▸ List.mem_map_of_mem Player.id hq)
        simpa using hq2
      have hba : (a.id != p.id) = false := by simp [hid]
      simp [List.filter_cons, hba, hrest, List.countP_cons, hap]
    · have hpr : p ∈ rest := by
        rcases List.mem_cons.mp hp with h | h
        · exact absurd (h ▸ rfl) (Ne.symm hid)
        · exact h
      have := ih hnd2.2 hpr
      simp only [List.filter_cons, show (a.id != p.id) = true by simpa using hid, if_true,
        List.countP_cons]
      omega

/-! ### Wave-resolution lemmas -/

theorem resolveTargets_decrement {r now st : Nat} {ps elim : List Player} {t : Player}
    (hnd : (ps.map Player.id).Nodup) (ht : t ∈ ps) (hs : 0 < t.shields) :
    resolveTargets r now st (ps, elim) [t.id] =
      (updPlayer ps t.id (fun q => { q with shields := q.shields - 1 }), elim) := by
  unfold resolveTargets
  simp only [List.foldl_cons, List.foldl_nil]
  unfold resolveOne
  rw [show ((ps, elim) : List Player × List Player).1 = ps from rfl,
    find?_eq_some_of_nodup hnd ht]
  simp [hs]

theorem resolveTargets_eliminate {r now st : Nat} :
    ∀ (ts : List Player) (ps elim : List Player),
      (ps.map Player.id).Nodup →
      (ts.map Player.id).Nodup →
      (∀ t ∈ ts, t ∈ ps ∧ t.shields = 0 ∧ t.isAlive = true) →
      resolveTargets r now st (ps, elim) (ts.map Player.id) =
          (ps.map (fun p => if p.id ∈ ts.map Player.id then killP r now st p else p),
           elim ++ ts.map (killP r now st)) ∧
        (resolveTargets r now st (ps, elim) (ts.map Player.id)).1.countP (fun p => p.isAlive)
            + ts.length = ps.countP (fun p => p.isAlive) ∧
        ((resolveTargets r now st (ps, elim) (ts.map Player.id)).1.map potentialP).sum
            + ts.length = (ps.map potentialP).sum := by
  intro ts
  induction ts with
  | nil =>
    intro ps elim hnd htd hall
    refine ⟨?_, by simp [resolveTargets], by simp [resolveTargets]⟩
    simp [resolveTargets]
  | cons t ts ih =>
    intro ps elim hnd htd hall
    obtain ⟨htp, hts, hta⟩ := hall t (List.mem_cons_self t ts)
    have htd2 : t.id ∉ ts.map Player.id ∧ (ts.map Player.id).Nodup := by
      rw [List.map_cons] at htd
      exact List.nodup_cons.mp htd
    have hone : resolveOne r now st (ps, elim) t.id =
        (updPlayer ps t.id (fun _ => killP r now st t), elim ++ [killP r now st t]) := by
      unfold resolveOne
      rw [show ((ps, elim) : List Player × List Player).1 = ps from rfl,
        find?_eq_some_of_nodup hnd htp]
      simp [hts]
    have hchain : ∀ elim2 : List Player,
        resolveTargets r now st (ps, elim2) ((t :: ts).map Player.id) =
          resolveTargets r now st (resolveOne r now st (ps, elim2) t.id) (ts.map Player.id) :=
      fun _ => rfl
    have hps1 : updPlayer ps t.id (fun _ => killP r now st t) =
        ps.map (fun q => if q.id == t.id then killP r now st t else q) := rfl
    have hnd1 : ((updPlayer ps t.id (fun _ => killP r now st t)).map Player.id).Nodup := by
      rw [updPlayer_map_id (fun q hq => hq.symm ▸ rfl)]
      exact hnd
    have hall1 : ∀ u ∈ ts, u ∈ updPlayer ps t.id (fun _ => killP r now st t) ∧
        u.shields = 0 ∧ u.isAlive = true := by
      intro u hu
      obtain ⟨hup, hus, hua⟩ := hall u (List.mem_cons_of_mem t hu)
      refine ⟨?_, hus, hua⟩
      have hne : u.id ≠ t.id := by
        intro he
        exact htd2.1 (he ▸ List.mem_map_of_mem Player.id hu)
      have : (fun q => if q.id == t.id then killP r now st t else q) u = u := by
        simp [hne]
      exact this ▸ List.mem_map_of_mem _ hup
    obtain ⟨ih1, ih2, ih3⟩ :=
      ih (updPlayer ps t.id (fun _ => killP r now st t)) (elim ++ [killP r now st t])
        hnd1 htd2.2 hall1
    have hkill : t.isAlive = true ∧ t.shields = 0 := ⟨hta, hts⟩
    have hcnt : (updPlayer ps t.id (fun _ => killP r now st t)).countP (fun p => p.isAlive) + 1
        = ps.countP (fun p => p.isAlive) := by
      have := countP_single_upd (v := killP r now st t) hnd htp (fun p => p.isAlive)
      rw [← hps1] at this
      simp only [killP, hta] at this
      simpa using this
    have hpot : ((updPlayer ps t.id (fun _ => killP r now st t)).map potentialP).sum + 1
        = (ps.map potentialP).sum := by
      have := sum_map_single_upd (v := killP r now st t) hnd htp potentialP
      rw [← hps1] at this
      have h1 : potentialP t = 1 := by simp [potentialP, hta, hts]
      have h2 : potentialP (killP r now st t) = 0 := by simp [potentialP, killP]
      rw [h1, h2] at this
      omega
    refine ⟨?_, ?_, ?_⟩
    · rw [hchain elim, hone, ih1, Prod.mk.injEq]
      constructor
      · rw [hps1, List.map_map]
        refine List.map_congr_left (fun q hq => ?_)
        by_cases hq1 : q.id = t.id
        · have hqt : q = t := mem_unique_of_nodup hnd hq htp hq1
          rw [hqt]
          simp only [Function.comp_apply, beq_self_eq_true, if_true]
          rw [if_neg (show ¬(killP r now st t).id ∈ List.map Player.id ts from htd2.1),
            if_pos (show t.id ∈ List.map Player.id (t :: ts) by
              rw [List.map_cons]
              exact List.mem_cons_self _ _)]
        · have hbq : ¬((q.id == t.id) = true) := by simp [hq1]
          simp only [Function.comp_apply]
          rw [if_neg hbq]
          by_cases hq2 : q.id ∈ List.map Player.id ts
          · rw [if_pos hq2, if_pos (by
              rw [List.map_cons]
              exact List.mem_cons_of_mem _ hq2)]
          · rw [if_neg hq2, if_neg (by
              rw [List.map_cons]
              intro hmem
              rcases List.mem_cons.mp hmem with h | h
              · exact hq1 h
              · exact hq2 h)]
      · simp
    · rw [hchain elim, hone]
      rw [List.length_cons]
      omega
    · rw [hchain elim, hone]
      rw [List.length_cons]
      omega

/-! ### endGame lemmas -/

theorem endGame_gameStatus (now : Nat) (s : GameState) :
    (endGame now s).gameStatus = GameStatus.finished := by
  unfold endGame
  split <;> rfl

theorem endGame_eliminationOrder (now : Nat) (s : GameState) :
    (endGame now s).eliminationOrder = s.eliminationOrder := by
  unfold endGame
  split <;> rfl

theorem endGame_winner_of_one {now : Nat} {s : GameState}
    (h : (s.players.filter (fun p => p.isAlive)).length = 1) :
    (endGame now s).winner ≠ none := by
  obtain ⟨w, hw⟩ := List.length_eq_one.mp h
  unfold endGame
  rw [hw]
  simp

theorem endGame_map_id (now : Nat) (s : GameState) :
    (endGame now s).players.map Player.id = s.players.map Player.id := by
  unfold endGame
  split
  · exact updPlayer_map_id (fun q hq => hq.symm ▸ rfl)
  · rfl

theorem endGame_countAlive {now : Nat} {s : GameState}
    (hnd : (s.players.map Player.id).Nodup) :
    (endGame now s).players.countP (fun p => p.isAlive)
      = s.players.countP (fun p => p.isAlive) := by
  unfold endGame
  split
  case _ w heq =>
    have hwmem : w ∈ s.players ∧ w.isAlive = true := by
      have : w ∈ s.players.filter (fun p => p.isAlive) := by
        rw [heq]
        exact List.mem_singleton_self w
      exact ⟨(List.mem_filter.mp this).1, (List.mem_filter.mp this).2⟩
    have hthis := countP_single_upd
      (v := { w with survivalTime := now - s.startTime.getD 0 }) hnd hwmem.1
      (fun p => p.isAlive)
    have hps1 : updPlayer s.players w.id
        (fun _ => { w with survivalTime := now - s.startTime.getD 0 }) =
        s.players.map (fun q => if q.id == w.id
          then { w with survivalTime := now - s.startTime.getD 0 } else q) := rfl
    dsimp only
    rw [hps1]
    simp only [hwmem.2, if_true] at hthis ⊢
    omega
  case _ => rfl

theorem endGame_potential {now : Nat} {s : GameState}
    (hnd : (s.players.map Player.id).Nodup) :
    ((endGame now s).players.map potentialP).sum = (s.players.map potentialP).sum := by
  unfold endGame
  split
  case _ w heq =>
    have hwmem : w ∈ s.players := by
      have : w ∈ s.players.filter (fun p => p.isAlive) := by
        rw [heq]
        exact List.mem_singleton_self w
      exact (List.mem_filter.mp this).1
    have := sum_map_single_upd
      (v := { w with survivalTime := now - s.startTime.getD 0 }) hnd hwmem potentialP
    have hpw : potentialP { w with survivalTime := now - s.startTime.getD 0 } = potentialP w := by
      simp [potentialP]
    rw [hpw] at this
    have hps1 : updPlayer s.players w.id
        (fun _ => { w with survivalTime := now - s.startTime.getD 0 }) =
        s.players.map (fun q => if q.id == w.id
          then { w with survivalTime := now - s.startTime.getD 0 } else q) := rfl
    dsimp only
    rw [hps1]
    omega
  case _ => rfl

/-! ### Wave lemmas -/

theorem countP_updPlayer (P : Player → Bool) (ps : List Player) (pid : Nat) (f : Player → Player)
    (hf : ∀ q, P (f q) = P q) : (updPlayer ps pid f).countP P = ps.countP P := by
  unfold updPlayer
  induction ps with
  | nil => rfl
  | cons a t ih =>
    rw [List.map_cons, List.countP_cons, List.countP_cons, ih]
    by_cases h : (a.id == pid) = true
    · rw [if_pos h, hf]
    · rw [if_neg h]

theorem ceil30_pos {n : Nat} (h : 1 ≤ n) : 1 ≤ ceil30 n := by
  unfold ceil30
  omega

theorem ceil30_lt {n : Nat} (h : 2 ≤ n) : ceil30 n < n := by
  unfold ceil30
  omega

theorem wave_not_playing {σ : WaveChoice} {now : Nat} {s : GameState}
    (hp : s.gameStatus ≠ GameStatus.playing) :
    runArchivingWaveFull σ now s = (s, none) := by
  unfold runArchivingWaveFull
  rw [if_pos hp]

theorem wave_few {σ : WaveChoice} {now : Nat} {s : GameState}
    (hp : s.gameStatus = GameStatus.playing) (h1 : aliveCount s ≤ 1) :
    (runArchivingWave σ now s).gameStatus = GameStatus.finished := by
  unfold runArchivingWave runArchivingWaveFull
  rw [if_neg (by simp [hp])]
  dsimp only
  rw [if_pos (show (List.filter (fun p => p.isAlive) s.players).length ≤ 1 from h1)]
  exact endGame_gameStatus _ _

theorem wave_status (σ : WaveChoice) (now : Nat) (s : GameState) :
    (runArchivingWave σ now s).gameStatus = s.gameStatus ∨
      (s.gameStatus = GameStatus.playing ∧
        (runArchivingWave σ now s).gameStatus = GameStatus.finished) := by
  by_cases hp : s.gameStatus = GameStatus.playing
  · unfold runArchivingWave runArchivingWaveFull
    rw [if_neg (by simp [hp])]
    dsimp only
    split
    · right
      exact ⟨hp, endGame_gameStatus _ _⟩
    · split <;> split
      all_goals first
        | (left; rfl)
        | (right; exact ⟨hp, endGame_gameStatus _ _⟩)
  · rw [show runArchivingWave σ now s = s from by
      unfold runArchivingWave runArchivingWaveFull
      rw [if_pos hp]]
    left
    rfl

theorem wave_forced {σ : WaveChoice} {now : Nat} {s : GameState}
    (hp : s.gameStatus = GameStatus.playing)
    (hnd : (s.players.map Player.id).Nodup)
    (hperm : ∀ l, (σ.sortR l).Perm l)
    (h2 : 2 ≤ aliveCount s)
    (helig : (s.players.filter (fun p => p.isAlive)).filter (fun p => p.shields == 0) = []) :
    runArchivingWaveFull σ now s =
      ({ s with
          currentRound := s.currentRound + 1,
          players := updPlayer s.players
            ((s.players.filter (fun p => p.isAlive)).getD
              (σ.pick % (s.players.filter (fun p => p.isAlive)).length) defaultPlayer).id
            (fun q => { q with shields := q.shields - 1 }) },
       some (max (10000 - ((s.currentRound + 1 : Nat) : Int) * 1000) 3000)) := by
  set alive := s.players.filter (fun p => p.isAlive) with halive
  set tsel := alive.getD (σ.pick % alive.length) defaultPlayer with htsel
  have hn2 : 2 ≤ alive.length := by
    rw [halive]
    exact h2
  have hidx : σ.pick % alive.length < alive.length := Nat.mod_lt _ (by omega)
  have htselAlive : tsel ∈ alive := by
    rw [htsel, List.getD_eq_getElem alive defaultPlayer hidx]
    exact List.getElem_mem _
  have htselP : tsel ∈ s.players := by
    rw [halive] at htselAlive
    exact (List.mem_filter.mp htselAlive).1
  have htselS : 0 < tsel.shields := by
    have := List.filter_eq_nil_iff.mp helig tsel htselAlive
    have h0 : tsel.shields ≠ 0 := by simpa using this
    omega
  have hsort : σ.sortR (alive.filter (fun p => p.shields == 0)) = [] := by
    rw [helig]
    exact (hperm []).eq_nil
  unfold runArchivingWaveFull
  rw [if_neg (by simp [hp])]
  dsimp only
  rw [← halive]
  rw [if_neg (show ¬ alive.length ≤ 1 by omega)]
  rw [hsort, List.take_nil, if_pos (⟨rfl, by omega⟩ :
    (List.length ([] : List Player) = 0 ∧ 1 < alive.length))]
  simp only [List.map_cons, List.map_nil]
  rw [← htsel, resolveTargets_decrement hnd htselP htselS]
  dsimp only
  have hflen : ((updPlayer s.players tsel.id
        (fun q => { q with shields := q.shields - 1 })).filter (fun p => p.isAlive)).length
      = alive.length := by
    rw [← List.countP_eq_length_filter, halive, ← List.countP_eq_length_filter]
    exact countP_updPlayer _ _ _ _ (fun q => rfl)
  have hnle : ¬ (((updPlayer s.players tsel.id
      (fun q => { q with shields := q.shields - 1 })).filter (fun p => p.isAlive)).length ≤ 1) := by
    rw [hflen]
    omega
  rw [if_neg hnle]

theorem endGame_currentRound (now : Nat) (s : GameState) :
    (endGame now s).currentRound = s.currentRound := by
  unfold endGame
  split <;> rfl

theorem aliveCount_eq_countP (s : GameState) :
    aliveCount s = s.players.countP (fun p => p.isAlive) := by
  unfold aliveCount
  rw [List.countP_eq_length_filter]

theorem endGame_facts {now : Nat} {s' : GameState}
    (hnd' : (s'.players.map Player.id).Nodup) :
    (endGame now s').eliminationOrder = s'.eliminationOrder ∧
    aliveCount (endGame now s') = aliveCount s' ∧
    potential (endGame now s') = potential s' ∧
    (endGame now s').players.map Player.id = s'.players.map Player.id ∧
    (endGame now s').currentRound = s'.currentRound ∧
    (endGame now s').gameStatus = GameStatus.finished ∧
    (aliveCount s' = 1 → (endGame now s').winner ≠ none) := by
  refine ⟨endGame_eliminationOrder now s', ?_, ?_, endGame_map_id now s',
    endGame_currentRound now s', endGame_gameStatus now s', fun h1 => endGame_winner_of_one h1⟩
  · rw [aliveCount_eq_countP, aliveCount_eq_countP]
    exact endGame_countAlive hnd'
  · unfold potential
    exact endGame_potential hnd'

theorem killIf_map_id (r n st : Nat) (tids : List Nat) (ps : List Player) :
    (ps.map (fun p => if p.id ∈ tids then killP r n st p else p)).map Player.id
      = ps.map Player.id := by
  rw [List.map_map]
  refine List.map_congr_left (fun p _ => ?_)
  by_cases h : p.id ∈ tids
  · simp [h, killP]
  · simp [h]

theorem wave_normal {σ : WaveChoice} {now : Nat} {s : GameState}
    (hp : s.gameStatus = GameStatus.playing)
    (hnd : (s.players.map Player.id).Nodup)
    (hperm : ∀ l, (σ.sortR l).Perm l)
    (h2 : 2 ≤ aliveCount s)
    (helig : (s.players.filter (fun p => p.isAlive)).filter (fun p => p.shields == 0) ≠ []) :
    ∃ ts : List Player,
      ts.length = min (ceil30 (aliveCount s))
        ((s.players.filter (fun p => p.isAlive)).filter (fun p => p.shields == 0)).length ∧
      1 ≤ ts.length ∧
      (∀ t ∈ ts, t.shields = 0 ∧ t.isAlive = true) ∧
      (runArchivingWave σ now s).eliminationOrder
        = s.eliminationOrder ++ ts.map (killP (s.currentRound + 1) now (s.startTime.getD 0)) ∧
      aliveCount (runArchivingWave σ now s) + ts.length = aliveCount s ∧
      potential (runArchivingWave σ now s) + ts.length = potential s ∧
      (runArchivingWave σ now s).players.map Player.id = s.players.map Player.id ∧
      (runArchivingWave σ now s).currentRound = s.currentRound + 1 ∧
      (aliveCount s - ts.length ≤ 1 →
        (runArchivingWave σ now s).gameStatus = GameStatus.finished ∧
          (runArchivingWave σ now s).winner ≠ none) ∧
      (1 < aliveCount s - ts.length →
        (runArchivingWave σ now s).gameStatus = GameStatus.playing) := by
  set alive := s.players.filter (fun p => p.isAlive) with halive
  set elig := alive.filter (fun p => p.shields == 0) with helig2
  set ts := (σ.sortR elig).take (ceil30 alive.length) with hts
  have halen : aliveCount s = alive.length := by
    rw [halive]
    rfl
  have hn2 : 2 ≤ alive.length := by
    rw [← halen]
    exact h2
  have hpe : (σ.sortR elig).Perm elig := hperm elig
  have hel : 0 < elig.length := List.length_pos.mpr helig
  have hlen : ts.length = min (ceil30 alive.length) elig.length := by
    rw [hts, List.length_take, hpe.length_eq]
  have hm1 : 1 ≤ ts.length := by
    have := ceil30_pos (n := alive.length) (by omega)
    omega
  have hmlt : ts.length < alive.length := by
    have := ceil30_lt (n := alive.length) hn2
    have hmin : min (ceil30 alive.length) elig.length ≤ ceil30 alive.length :=
      Nat.min_le_left _ _
    omega
  have hsubE : ∀ t ∈ ts, t ∈ elig := by
    intro t htm
    rw [hts] at htm
    exact hpe.mem_iff.mp (List.take_subset _ _ htm)
  have hprops : ∀ t ∈ ts, t ∈ s.players ∧ t.shields = 0 ∧ t.isAlive = true := by
    intro t htm
    have he := hsubE t htm
    rw [helig2] at he
    have h1 := List.mem_filter.mp he
    rw [halive] at h1
    have h2f := List.mem_filter.mp h1.1
    refine ⟨h2f.1, by simpa using h1.2, h2f.2⟩
  have htsnd : (ts.map Player.id).Nodup := by
    have hsub : ts.Sublist (σ.sortR elig) := by
      rw [hts]
      exact List.take_sublist _ _
    have hsubm : (ts.map Player.id).Sublist ((σ.sortR elig).map Player.id) := hsub.map _
    have hpm : ((σ.sortR elig).map Player.id).Perm (elig.map Player.id) := hpe.map _
    have heligsub : elig.Sublist s.players := by
      rw [helig2, halive]
      exact (List.filter_sublist _).trans (List.filter_sublist _)
    have h4 : (elig.map Player.id).Nodup := (heligsub.map Player.id).nodup hnd
    exact hsubm.nodup (hpm.symm.nodup h4)
  have hne : ¬ (ts.length = 0 ∧ 1 < alive.length) := by
    intro h
    omega
  obtain ⟨hres, hcnt, hpot⟩ :=
    @resolveTargets_eliminate (s.currentRound + 1) now (s.startTime.getD 0)
      ts s.players s.eliminationOrder hnd htsnd hprops
  rw [hres] at hcnt hpot
  refine ⟨ts, by rw [hlen, halen], hm1, fun t htm => ⟨(hprops t htm).2.1, (hprops t htm).2.2⟩,
    ?_⟩
  unfold runArchivingWave runArchivingWaveFull
  rw [if_neg (by simp [hp])]
  dsimp only
  rw [← halive]
  rw [if_neg (show ¬ alive.length ≤ 1 by omega)]
  rw [← helig2, ← hts, if_neg hne, hres]
  dsimp only
  have hcA : ((s.players.map (fun p => if p.id ∈ ts.map Player.id
        then killP (s.currentRound + 1) now (s.startTime.getD 0) p else p)).filter
        (fun p => p.isAlive)).length + ts.length = alive.length := by
    rw [← List.countP_eq_length_filter]
    rw [halive, ← List.countP_eq_length_filter]
    exact hcnt
  have hids2 : ((s.players.map (fun p => if p.id ∈ ts.map Player.id
        then killP (s.currentRound + 1) now (s.startTime.getD 0) p else p)).map Player.id)
      = s.players.map Player.id := killIf_map_id _ _ _ _ _
  by_cases hfin : alive.length - ts.length ≤ 1
  · rw [if_pos (show ((s.players.map (fun p => if p.id ∈ ts.map Player.id
        then killP (s.currentRound + 1) now (s.startTime.getD 0) p else p)).filter
        (fun p => p.isAlive)).length ≤ 1 by omega)]
    dsimp only
    have hfacts := @endGame_facts now
      ({ s with
        currentRound := s.currentRound + 1,
        players := s.players.map (fun p => if p.id ∈ ts.map Player.id
          then killP (s.currentRound + 1) now (s.startTime.getD 0) p else p),
        eliminationOrder := s.eliminationOrder
          ++ ts.map (killP (s.currentRound + 1) now (s.startTime.getD 0)) } : GameState)
      (by
        dsimp only
        rw [hids2]
        exact hnd)
    obtain ⟨hf1, hf2, hf3, hf4, hf5, hf6, hf7⟩ := hfacts
    have haC : aliveCount ({ s with
        currentRound := s.currentRound + 1,
        players := s.players.map (fun p => if p.id ∈ ts.map Player.id
          then killP (s.currentRound + 1) now (s.startTime.getD 0) p else p),
        eliminationOrder := s.eliminationOrder
          ++ ts.map (killP (s.currentRound + 1) now (s.startTime.getD 0)) } : GameState)
        + ts.length = alive.length := hcA
    refine ⟨hf1, ?_, ?_, by rw [hf4]; exact hids2, by rw [hf5], fun _ => ⟨hf6, hf7 (by omega)⟩,
      fun hgt => absurd hgt (by omega)⟩
    · rw [hf2, halen]
      exact haC
    · rw [hf3]
      exact hpot
  · rw [if_neg (show ¬ ((s.players.map (fun p => if p.id ∈ ts.map Player.id
        then killP (s.currentRound + 1) now (s.startTime.getD 0) p else p)).filter
        (fun p => p.isAlive)).length ≤ 1 by omega)]
    dsimp only
    refine ⟨rfl, ?_, hpot, hids2, rfl, fun hle => absurd hle (by omega), fun _ => hp⟩
    rw [halen]
    exact hcA

theorem updPlayer_const_of_nodup {ps : List Player} {t : Player} (f : Player → Player)
    (hnd : (ps.map Player.id).Nodup) (ht : t ∈ ps) :
    updPlayer ps t.id f = ps.map (fun q => if q.id == t.id then f t else q) := by
  unfold updPlayer
  refine List.map_congr_left (fun q hq => ?_)
  by_cases h : q.id = t.id
  · rw [mem_unique_of_nodup hnd hq ht h]
  · simp [h]

theorem wave_progress {σ : WaveChoice} {now : Nat} {s : GameState}
    (hp : s.gameStatus = GameStatus.playing)
    (hnd : (s.players.map Player.id).Nodup)
    (hperm : ∀ l, (σ.sortR l).Perm l) :
    (runArchivingWave σ now s).gameStatus = GameStatus.finished ∨
      ((runArchivingWave σ now s).gameStatus = GameStatus.playing ∧
        potential (runArchivingWave σ now s) < potential s ∧
        ((runArchivingWave σ now s).players.map Player.id).Nodup) := by
  by_cases h1 : aliveCount s ≤ 1
  · left
    exact wave_few hp h1
  · have h2 : 2 ≤ aliveCount s := by omega
    by_cases helig : (s.players.filter (fun p => p.isAlive)).filter (fun p => p.shields == 0) = []
    · right
      have hn2 : 2 ≤ (s.players.filter (fun p => p.isAlive)).length := h2
      have hidx : σ.pick % (s.players.filter (fun p => p.isAlive)).length
          < (s.players.filter (fun p => p.isAlive)).length := Nat.mod_lt _ (by omega)
      have hTalive2 : (s.players.filter (fun p => p.isAlive)).getD
          (σ.pick % (s.players.filter (fun p => p.isAlive)).length) defaultPlayer
          ∈ s.players.filter (fun p => p.isAlive) := by
        rw [List.getD_eq_getElem _ defaultPlayer hidx]
        exact List.getElem_mem _
      have hTmem : (s.players.filter (fun p => p.isAlive)).getD
          (σ.pick % (s.players.filter (fun p => p.isAlive)).length) defaultPlayer
          ∈ s.players := (List.mem_filter.mp hTalive2).1
      have hTalive : ((s.players.filter (fun p => p.isAlive)).getD
          (σ.pick % (s.players.filter (fun p => p.isAlive)).length) defaultPlayer).isAlive
          = true := (List.mem_filter.mp hTalive2).2
      have hTs : 0 < ((s.players.filter (fun p => p.isAlive)).getD
          (σ.pick % (s.players.filter (fun p => p.isAlive)).length) defaultPlayer).shields := by
        have := List.filter_eq_nil_iff.mp helig _ hTalive2
        have h0 : ((s.players.filter (fun p => p.isAlive)).getD
            (σ.pick % (s.players.filter (fun p => p.isAlive)).length) defaultPlayer).shields
            ≠ 0 := by simpa using this
        omega
    -- abbreviate the forced pick
      generalize hT : (s.players.filter (fun p => p.isAlive)).getD
        (σ.pick % (s.players.filter (fun p => p.isAlive)).length) defaultPlayer = T
        at hTalive2 hTmem hTalive hTs
      have hw1 : runArchivingWave σ now s =
          { s with
            currentRound := s.currentRound + 1,
            players := updPlayer s.players T.id (fun q => { q with shields := q.shields - 1 }) }
          := by
        unfold runArchivingWave
        rw [wave_forced hp hnd hperm h2 helig, hT]
      refine ⟨by rw [hw1]; exact hp, ?_, ?_⟩
      · have hkey := sum_map_single_upd
          (v := ({ T with shields := T.shields - 1 } : Player)) hnd hTmem potentialP
        have hlhs : potential (runArchivingWave σ now s) =
            ((s.players.map (fun q => if q.id == T.id
              then ({ T with shields := T.shields - 1 } : Player) else q)).map potentialP).sum
            := by
          rw [hw1]
          unfold potential
          dsimp only
          rw [updPlayer_const_of_nodup _ hnd hTmem]
        have hpotT : potentialP T = T.shields + 1 := by
          simp [potentialP, hTalive]
        have hpotT2 : potentialP ({ T with shields := T.shields - 1 } : Player)
            = T.shields - 1 + 1 := by
          simp [potentialP, hTalive]
        have hrhs : potential s = (s.players.map potentialP).sum := rfl
        rw [hlhs, hrhs]
        omega
      · rw [hw1]
        dsimp only
        rw [updPlayer_map_id (f := fun q => { q with shields := q.shields - 1 })
          (fun q _ => rfl)]
        exact hnd
    · obtain ⟨ts, hlen, hm1, hzp, helim, hcnt, hpot, hid, hrnd, h9, h10⟩ :=
        wave_normal hp hnd hperm h2 helig
      by_cases hfin : aliveCount s - ts.length ≤ 1
      · left
        exact (h9 hfin).1
      · right
        refine ⟨h10 (by omega), by omega, ?_⟩
        rw [hid]
        exact hnd

/-! ### Status-transition lemmas for every handler -/

theorem joinGame_gameStatus (sid : Nat) (pn gn : String) (rx ry : Int) (s : GameState) :
    (joinGame sid pn gn rx ry s).gameStatus = s.gameStatus := rfl

theorem spawnShield_gameStatus (rid : Nat) (rx ry : Int) (s : GameState) :
    (spawnShield rid rx ry s).gameStatus = s.gameStatus := by
  unfold spawnShield
  split
  · rfl
  · dsimp only
    split <;> rfl

theorem resetGame_gameStatus (s : GameState) :
    (resetGame s).gameStatus = GameStatus.waiting := rfl

theorem startGame_gameStatus (sid now : Nat) (s : GameState) :
    (startGame sid now s).gameStatus = s.gameStatus ∨
      (s.gameStatus ≠ GameStatus.playing ∧
        (startGame sid now s).gameStatus = GameStatus.playing) := by
  unfold startGame
  cases hf : findPlayer s.players sid with
  | none => left; rfl
  | some p =>
    dsimp only
    by_cases hc : p.isHost = false ∨ s.gameStatus = GameStatus.playing
    · rw [if_pos hc]
      left
      rfl
    · rw [if_neg hc]
      right
      exact ⟨fun h => hc (Or.inr h), rfl⟩

theorem playerMove_gameStatus (sid : Nat) (mx my : Int) (s : GameState) :
    (playerMove sid mx my s).gameStatus = s.gameStatus := by
  unfold playerMove playerMoveFull
  cases hf : findPlayer s.players sid with
  | none => rfl
  | some p =>
    dsimp only
    split
    · split <;> rfl
    · rfl

theorem resetGameHandler_gameStatus (sid : Nat) (s : GameState) :
    (resetGameHandler sid s).gameStatus = s.gameStatus ∨
      (resetGameHandler sid s).gameStatus = GameStatus.waiting := by
  unfold resetGameHandler
  cases hf : findPlayer s.players sid with
  | none => left; rfl
  | some p =>
    dsimp only
    split
    · right
      rfl
    · left
      rfl

theorem requestRestart_gameStatus (s : GameState) :
    (requestRestart s).gameStatus = s.gameStatus ∨
      (requestRestart s).gameStatus = GameStatus.waiting := by
  unfold requestRestart
  split
  · left
    rfl
  · right
    rfl

theorem disconnect_gameStatus (sid : Nat) (s : GameState) :
    (disconnect sid s).gameStatus = s.gameStatus ∨
      (disconnect sid s).gameStatus = GameStatus.waiting := by
  unfold disconnect
  cases hf : findPlayer s.players sid with
  | none => left; rfl
  | some p =>
    dsimp only
    split <;> first
      | (left; rfl)
      | (right; rfl)
      | (split <;> first
          | (left; rfl)
          | (right; rfl))

theorem mem_statusPairs_aux {a b : GameStatus}
    (h : a = b ∨ b = GameStatus.waiting ∨
      (a ≠ GameStatus.playing ∧ b = GameStatus.playing) ∨
      (a = GameStatus.playing ∧ b = GameStatus.finished)) :
    (a, b) ∈ statusPairs := by
  cases a <;> cases b <;> first
    | decide
    | (rcases h with h | h | ⟨h1, h2⟩ | ⟨h1, h2⟩ <;> simp_all)

/-! ### Shield-bound preservation -/

theorem shieldsOk_iff (s : GameState) :
    shieldsOk s = true ↔ ∀ p ∈ s.players, p.shields ≤ 3 := by
  unfold shieldsOk
  simp [List.all_eq_true]

theorem shields_bound_updPlayer {ps : List Player} {pid : Nat} {f : Player → Player}
    (h : ∀ p ∈ ps, p.shields ≤ 3) (hf : ∀ q, q.shields ≤ 3 → (f q).shields ≤ 3) :
    ∀ p ∈ updPlayer ps pid f, p.shields ≤ 3 := by
  intro p hp
  obtain ⟨q, hq, he⟩ := List.mem_map.mp hp
  by_cases hb : (q.id == pid) = true
  · rw [if_pos hb] at he
    rw [← he]
    exact hf q (h q hq)
  · rw [if_neg hb] at he
    rw [← he]
    exact h q hq

theorem shields_bound_resolveOne {r n st : Nat} {acc : List Player × List Player} {tid : Nat}
    (h : ∀ p ∈ acc.1, p.shields ≤ 3) :
    ∀ p ∈ (resolveOne r n st acc tid).1, p.shields ≤ 3 := by
  unfold resolveOne
  split
  · exact h
  case _ p0 hfind =>
    split
    · exact shields_bound_updPlayer h (fun q hq => by
        dsimp only
        omega)
    · refine shields_bound_updPlayer h (fun q _ => ?_)
      have : p0 ∈ acc.1 := List.mem_of_find?_eq_some hfind
      exact h p0 this

theorem shields_bound_resolveTargets {r n st : Nat} :
    ∀ (tids : List Nat) (acc : List Player × List Player),
      (∀ p ∈ acc.1, p.shields ≤ 3) →
      ∀ p ∈ (resolveTargets r n st acc tids).1, p.shields ≤ 3 := by
  intro tids
  induction tids with
  | nil => intro acc h; exact h
  | cons tid rest ih =>
    intro acc h
    exact ih (resolveOne r n st acc tid) (shields_bound_resolveOne h)

theorem shields_bound_endGame {n : Nat} {s : GameState}
    (h : ∀ p ∈ s.players, p.shields ≤ 3) :
    ∀ p ∈ (endGame n s).players, p.shields ≤ 3 := by
  unfold endGame
  split
  case _ w heq =>
    refine shields_bound_updPlayer h (fun q _ => ?_)
    have hw : w ∈ s.players := by
      have : w ∈ s.players.filter (fun p => p.isAlive) := by
        rw [heq]
        exact List.mem_singleton_self w
      exact (List.mem_filter.mp this).1
    exact h w hw
  case _ => exact h

theorem shields_bound_wave {σ : WaveChoice} {now : Nat} {s : GameState}
    (h : ∀ p ∈ s.players, p.shields ≤ 3) :
    ∀ p ∈ (runArchivingWave σ now s).players, p.shields ≤ 3 := by
  unfold runArchivingWave runArchivingWaveFull
  split
  · exact h
  · dsimp only
    split
    · exact shields_bound_endGame h
    · split <;> split
      all_goals first
        | exact shields_bound_resolveTargets _ _ h
        | exact shields_bound_endGame (shields_bound_resolveTargets _ _ h)

theorem shields_bound_mapSet {ps : List Player} {q : Player}
    (h : ∀ p ∈ ps, p.shields ≤ 3) (hq : q.shields ≤ 3) :
    ∀ p ∈ mapSet ps q, p.shields ≤ 3 := by
  unfold mapSet
  split
  · intro p hp
    obtain ⟨u, hu, he⟩ := List.mem_map.mp hp
    by_cases hb : (u.id == q.id) = true
    · rw [if_pos hb] at he
      rw [← he]
      exact hq
    · rw [if_neg hb] at he
      rw [← he]
      exact h u hu
  · intro p hp
    rcases List.mem_append.mp hp with hp | hp
    · exact h p hp
    · rw [List.mem_singleton.mp hp]
      exact hq

theorem step_shields_bound {s : GameState} (t : Step)
    (h : ∀ p ∈ s.players, p.shields ≤ 3) :
    ∀ p ∈ (applyStep t s).players, p.shields ≤ 3 := by
  cases t with
  | join sid pn gn rx ry =>
    exact shields_bound_mapSet h (by norm_num)
  | start sid now =>
    dsimp only [applyStep]
    unfold startGame
    cases hf : findPlayer s.players sid with
    | none => exact h
    | some p =>
      dsimp only
      split
      · exact h
      · intro p hp
        obtain ⟨q, _, he⟩ := List.mem_map.mp hp
        rw [← he]
        norm_num
  | move sid mx my =>
    dsimp only [applyStep]
    unfold playerMove playerMoveFull
    cases hf : findPlayer s.players sid with
    | none => exact h
    | some p =>
      dsimp only
      split
      · split
        · refine shields_bound_updPlayer (shields_bound_updPlayer h (fun q hq => hq)) ?_
          intro q hq
          dsimp only
          omega
        · exact shields_bound_updPlayer h (fun q hq => hq)
      · exact h
  | reset sid =>
    dsimp only [applyStep]
    unfold resetGameHandler
    cases hf : findPlayer s.players sid with
    | none => exact h
    | some p =>
      dsimp only
      split
      · intro p hp
        obtain ⟨q, _, he⟩ := List.mem_map.mp hp
        rw [← he]
        norm_num
      · exact h
  | restart =>
    dsimp only [applyStep]
    unfold requestRestart
    split
    · exact h
    · intro p hp
      obtain ⟨q, _, he⟩ := List.mem_map.mp hp
      rw [← he]
      norm_num
  | disc sid =>
    dsimp only [applyStep]
    unfold disconnect
    cases hf : findPlayer s.players sid with
    | none => exact h
    | some p =>
      dsimp only
      have hfil : ∀ p ∈ s.players.filter (fun q => q.id != sid), p.shields ≤ 3 :=
        fun p hp => h p (List.mem_filter.mp hp).1
      have hps2 : ∀ u ∈ (if p.isHost = true ∧ 0 < (s.players.filter (fun q => q.id != sid)).length
          then match s.players.filter (fun q => q.id != sid) with
            | [] => s.players.filter (fun q => q.id != sid)
            | q :: rest => { q with isHost := true } :: rest
          else s.players.filter (fun q => q.id != sid)), u.shields ≤ 3 := by
        by_cases hc : p.isHost = true ∧ 0 < (s.players.filter (fun q => q.id != sid)).length
        · rw [if_pos hc]
          split
          · exact hfil
          case _ q rest heq =>
            intro u hu
            rcases List.mem_cons.mp hu with hu | hu
            · rw [hu]
              have hqm : q ∈ s.players.filter (fun v => v.id != sid) := by
                rw [heq]
                exact List.mem_cons_self _ _
              exact hfil q hqm
            · exact hfil u (by
                rw [heq]
                exact List.mem_cons_of_mem _ hu)
        · rw [if_neg hc]
          exact hfil
      generalize hg : (if p.isHost = true ∧ 0 < (s.players.filter (fun q => q.id != sid)).length
          then match s.players.filter (fun q => q.id != sid) with
            | [] => s.players.filter (fun q => q.id != sid)
            | q :: rest => { q with isHost := true } :: rest
          else s.players.filter (fun q => q.id != sid)) = ps2 at hps2 ⊢
      split
      · intro u hu
        obtain ⟨q, hq, he⟩ := List.mem_map.mp hu
        rw [← he]
        norm_num
      · exact hps2
  | wave σ now => exact shields_bound_wave h
  | spawn rid rx ry =>
    dsimp only [applyStep]
    unfold spawnShield
    split
    · exact h
    · dsimp only
      split
      · exact h
      · exact h

theorem applySteps_shields_bound :
    ∀ (ts : List Step) (s : GameState), (∀ p ∈ s.players, p.shields ≤ 3) →
      ∀ p ∈ (applySteps ts s).players, p.shields ≤ 3 := by
  intro ts
  induction ts with
  | nil => intro s h; exact h
  | cons t rest ih =>
    intro s h
    exact ih (applyStep t s) (step_shields_bound t h)

/-! ### Host-invariant machinery -/

theorem reg_hostInv : ∀ s : GameState, RegReachable s →
    HostInv s ∧ (s.players.map Player.id).Nodup := by
  intro s h
  induction h with
  | init =>
    constructor
    · unfold HostInv initialGameState
      rfl
    · exact List.nodup_nil
  | join s sid pn gn rx ry hr hfresh ih =>
    have hnotin : sid ∉ s.players.map Player.id := by
      intro hmem
      obtain ⟨q, hq, hqid⟩ := List.mem_map.mp hmem
      have := List.find?_eq_none.mp hfresh q hq
      simp [hqid] at this
    have hany : ¬ (s.players.any (fun q => q.id == sid) = true) := by
      rw [List.any_eq_true]
      rintro ⟨q, hq, hqid⟩
      exact hnotin (by
        have : q.id = sid := by simpa using hqid
        exact this ▸ List.mem_map_of_mem Player.id hq)
    constructor
    · unfold HostInv joinGame
      dsimp only
      unfold mapSet
      rw [if_neg hany, List.countP_append]
      cases hps : s.players with
      | nil =>
        simp [List.countP_cons]
      | cons a rest =>
        have h1 : HostInv s := ih.1
        unfold HostInv at h1
        rw [hps] at h1
        simp at h1
        simp [List.countP_cons]
        rw [List.countP_cons] at h1
        omega
    · unfold joinGame
      dsimp only
      unfold mapSet
      rw [if_neg hany, List.map_append]
      rw [List.nodup_append]
      refine ⟨ih.2, List.nodup_singleton _, ?_⟩
      intro a ha hb
      rw [List.mem_singleton.mp hb] at ha
      exact hnotin ha
  | leave s sid hr ih =>
    unfold disconnect
    cases hfind : findPlayer s.players sid with
    | none => exact ih
    | some p =>
      dsimp only
      have hpmem : p ∈ s.players := List.mem_of_find?_eq_some hfind
      have hpid : p.id = sid := by simpa using List.find?_some hfind
      subst hpid
      have hsub : (s.players.filter (fun q => q.id != p.id)).Sublist s.players :=
        List.filter_sublist _
      have hndf : ((s.players.filter (fun q => q.id != p.id)).map Player.id).Nodup :=
        (hsub.map Player.id).nodup ih.2
      have hcnt := countP_remove (fun q => q.isHost) ih.2 hpmem
      dsimp only at hcnt
      have hinv : HostInv s := ih.1
      unfold HostInv at hinv
      have hne : ¬ s.players.isEmpty = true := by
        cases hps : s.players with
        | nil => rw [hps] at hpmem; cases hpmem
        | cons a rest => simp
      rw [if_neg hne] at hinv
      generalize hgen : s.players.filter (fun q => q.id != p.id) = ps at hcnt hndf ⊢
      by_cases hhost : p.isHost = true
      · have hcnt0 : ps.countP (fun q => q.isHost) = 0 := by
          rw [hhost] at hcnt
          simp at hcnt
          omega
        cases ps with
        | nil =>
          rw [if_neg (show ¬ (p.isHost = true ∧ 0 < ([] : List Player).length) from
            fun hA => absurd hA.2 (by decide))]
          rw [if_pos (show List.length ([] : List Player) = 0 from rfl)]
          constructor
          · unfold HostInv resetGame
            rfl
          · unfold resetGame
            exact List.nodup_nil
        | cons q rest =>
          rw [if_pos (show p.isHost = true ∧ 0 < (q :: rest).length from ⟨hhost, by simp⟩)]
          dsimp only
          rw [if_neg (show ¬ ({ q with isHost := true } :: rest).length = 0 by simp)]
          constructor
          · unfold HostInv
            dsimp only
            simp only [List.countP_cons] at hcnt0 ⊢
            simp at hcnt0 ⊢
            exact hcnt0.1
          · dsimp only
            simpa using hndf
      · have hcnt1 : ps.countP (fun q => q.isHost) = 1 := by
          have hh : (if p.isHost = true then 1 else 0) = 0 := by simp [hhost]
          rw [hh] at hcnt
          omega
        have hfne : ¬ ps.length = 0 := by
          intro hl
          rw [List.length_eq_zero.mp hl] at hcnt1
          simp at hcnt1
        rw [if_neg (show ¬ (p.isHost = true ∧ 0 < ps.length) from fun hA => hhost hA.1)]
        rw [if_neg hfne]
        constructor
        · unfold HostInv
          dsimp only
          rw [hcnt1]
          rw [if_neg (by
            rw [List.isEmpty_iff]
            intro hl
            rw [hl] at hcnt1
            simp at hcnt1)]
        · exact hndf

/-! ### Delay, forced-wave and termination support -/

theorem wave_snd_some (σ : WaveChoice) (now : Nat) (s : GameState) :
    (runArchivingWaveFull σ now s).2 = none ∨
    ((runArchivingWaveFull σ now s).2
        = some (max (10000 - ((s.currentRound + 1 : Nat) : Int) * 1000) 3000) ∧
      (runArchivingWaveFull σ now s).1.currentRound = s.currentRound + 1) := by
  unfold runArchivingWaveFull
  split
  · left
    rfl
  · dsimp only
    split
    · left
      rfl
    · split <;> split
      all_goals first
        | (left; rfl)
        | (right; exact ⟨rfl, rfl⟩)

theorem wave_forced_facts {σ : WaveChoice} {now : Nat} {s : GameState}
    (hp : s.gameStatus = GameStatus.playing)
    (hnd : (s.players.map Player.id).Nodup)
    (hperm : ∀ l, (σ.sortR l).Perm l)
    (h2 : 2 ≤ aliveCount s)
    (helig : (s.players.filter (fun p => p.isAlive)).filter (fun p => p.shields == 0) = []) :
    ((s.players.filter (fun p => p.isAlive)).getD
        (σ.pick % (s.players.filter (fun p => p.isAlive)).length) defaultPlayer)
      ∈ s.players.filter (fun p => p.isAlive) ∧
    runArchivingWave σ now s = { s with
      currentRound := s.currentRound + 1,
      players := updPlayer s.players
        ((s.players.filter (fun p => p.isAlive)).getD
          (σ.pick % (s.players.filter (fun p => p.isAlive)).length) defaultPlayer).id
        (fun q => { q with shields := q.shields - 1 }) } ∧
    (runArchivingWave σ now s).eliminationOrder = s.eliminationOrder ∧
    aliveCount (runArchivingWave σ now s) = aliveCount s ∧
    (runArchivingWave σ now s).gameStatus = GameStatus.playing := by
  have hn2 : 2 ≤ (s.players.filter (fun p => p.isAlive)).length := h2
  have hidx : σ.pick % (s.players.filter (fun p => p.isAlive)).length
      < (s.players.filter (fun p => p.isAlive)).length := Nat.mod_lt _ (by omega)
  have hmem : (s.players.filter (fun p => p.isAlive)).getD
      (σ.pick % (s.players.filter (fun p => p.isAlive)).length) defaultPlayer
      ∈ s.players.filter (fun p => p.isAlive) := by
    rw [List.getD_eq_getElem _ defaultPlayer hidx]
    exact List.getElem_mem _
  have hw1 : runArchivingWave σ now s = { s with
      currentRound := s.currentRound + 1,
      players := updPlayer s.players
        ((s.players.filter (fun p => p.isAlive)).getD
          (σ.pick % (s.players.filter (fun p => p.isAlive)).length) defaultPlayer).id
        (fun q => { q with shields := q.shields - 1 }) } := by
    unfold runArchivingWave
    rw [wave_forced hp hnd hperm h2 helig]
  have hflen : aliveCount (runArchivingWave σ now s) = aliveCount s := by
    rw [hw1, aliveCount_eq_countP, aliveCount_eq_countP]
    exact countP_updPlayer _ _ _ _ (fun q => rfl)
  exact ⟨hmem, hw1, by rw [hw1], hflen, by rw [hw1]; exact hp⟩

theorem terminate_aux : ∀ (n : Nat) (σs : Nat → WaveChoice) (now : Nat) (s : GameState),
    (∀ i l, ((σs i).sortR l).Perm l) → (s.players.map Player.id).Nodup →
    s.gameStatus = GameStatus.playing → potential s ≤ n →
    terminatesWithin σs now s (n + 1) := by
  intro n
  induction n with
  | zero =>
    intro σs now s hperm hnd hp hpot
    rcases @wave_progress (σs 0) now s hp hnd (hperm 0) with hfin | ⟨_, hdec, _⟩
    · exact ⟨1, le_refl 1, hfin⟩
    · omega
  | succ n ih =>
    intro σs now s hperm hnd hp hpot
    rcases @wave_progress (σs 0) now s hp hnd (hperm 0) with hfin | ⟨hp2, hdec, hnd2⟩
    · exact ⟨1, by omega, hfin⟩
    · obtain ⟨k, hk, hfin⟩ := ih (fun i => σs (i + 1)) now (runArchivingWave (σs 0) now s)
        (fun i l => hperm (i + 1) l) hnd2 hp2 (by omega)
      exact ⟨k + 1, by omega, hfin⟩

theorem advStart_eq_advState : advStart = advState 3 0 [] := by rfl

theorem advStage1 (k : Nat) :
    runArchivingWave waveId 0 (advState 3 k []) = advState 2 (k + 1) [] := by
  simp only [runArchivingWave, runArchivingWaveFull, waveId, advState, advP1, advP2]
  rfl

theorem advStage2 (k : Nat) :
    spawnShield 92 100 100 (advState 2 k []) =
      advState 2 k [{ id := 92, x := 100, y := 100 }] := by
  simp only [spawnShield, advState, advP1, advP2]
  rfl

theorem advStage3 (k : Nat) :
    playerMove 1 100 100 (advState 2 k [{ id := 92, x := 100, y := 100 }]) =
      advState 3 k [] := by
  simp only [playerMove, playerMoveFull, advState, advP1, advP2]
  rfl

theorem advStage4 (k : Nat) :
    spawnShield 93 200 200 (advState 3 k []) =
      advState 3 k [{ id := 93, x := 200, y := 200 }] := by
  simp only [spawnShield, advState, advP1, advP2]
  rfl

theorem advStage5 (k : Nat) :
    playerMove 2 200 200 (advState 3 k [{ id := 93, x := 200, y := 200 }]) =
      advState 3 k [] := by
  simp only [playerMove, playerMoveFull, advState, advP1, advP2]
  rfl

theorem advRun_closed : ∀ k : Nat, advRun k = advState 3 k [] := by
  intro k
  induction k with
  | zero => exact advStart_eq_advState
  | succ k ih =>
    show refill (runArchivingWave waveId 0 (advRun k)) = _
    rw [ih, advStage1]
    show playerMove 2 200 200 (spawnShield 93 200 200
      (playerMove 1 100 100 (spawnShield 92 100 100 (advState 2 (k + 1) [])))) = _
    rw [advStage2, advStage3, advStage4, advStage5]

theorem advRun_playing (k : Nat) : (advRun k).gameStatus = GameStatus.playing := by
  rw [advRun_closed]
  rfl

/-! ## Claims -/

/-- Claim C1, counterexample: in the finished session `sF` the registered
host's `start-game` is accepted (the guard only rejects non-hosts and
sessions already Playing), so the status moves directly from Finished to
Playing, a transition outside the four listed in the claim. -/
theorem C1_counterexample :
    sF.gameStatus = GameStatus.finished ∧
    (applyStep (Step.start 1 99) sF).gameStatus = GameStatus.playing ∧
    (GameStatus.finished, GameStatus.playing) ∉
      [(GameStatus.waiting, GameStatus.playing), (GameStatus.playing, GameStatus.finished),
       (GameStatus.finished, GameStatus.waiting), (GameStatus.waiting, GameStatus.waiting)] := by
  refine ⟨by decide, by decide, by decide⟩

/-- Claim C1, amended: every handler or timer step moves the status along
one of the pairs of `statusPairs`: the four transitions the claim lists
plus the stutter pairs Playing→Playing and Finished→Finished, the reset
path Playing→Waiting, and the restart transition Finished→Playing (the
`start-game` guard does not exclude a Finished session). -/
theorem C1_step_status_pairs (s : GameState) (t : Step) :
    (s.gameStatus, (applyStep t s).gameStatus) ∈ statusPairs := by
  cases t with
  | join sid pn gn rx ry =>
    exact mem_statusPairs_aux (Or.inl (joinGame_gameStatus sid pn gn rx ry s).symm)
  | start sid now =>
    rcases startGame_gameStatus sid now s with h | ⟨h1, h2⟩
    · exact mem_statusPairs_aux (Or.inl h.symm)
    · exact mem_statusPairs_aux (Or.inr (Or.inr (Or.inl ⟨h1, h2⟩)))
  | move sid mx my =>
    exact mem_statusPairs_aux (Or.inl (playerMove_gameStatus sid mx my s).symm)
  | reset sid =>
    rcases resetGameHandler_gameStatus sid s with h | h
    · exact mem_statusPairs_aux (Or.inl h.symm)
    · exact mem_statusPairs_aux (Or.inr (Or.inl h))
  | restart =>
    rcases requestRestart_gameStatus s with h | h
    · exact mem_statusPairs_aux (Or.inl h.symm)
    · exact mem_statusPairs_aux (Or.inr (Or.inl h))
  | disc sid =>
    rcases disconnect_gameStatus sid s with h | h
    · exact mem_statusPairs_aux (Or.inl h.symm)
    · exact mem_statusPairs_aux (Or.inr (Or.inl h))
  | wave σ now =>
    rcases wave_status σ now s with h | h
    · exact mem_statusPairs_aux (Or.inl h.symm)
    · exact mem_statusPairs_aux (Or.inr (Or.inr (Or.inr h)))
  | spawn rid rx ry =>
    exact mem_statusPairs_aux (Or.inl (spawnShield_gameStatus rid rx ry s).symm)

/-- Claim C2, counterexample: from the reachable Playing state `advStart`
(two alive participants at the shield cap), the adversarial run `advRun` —
one wave per round followed by re-collection of a spawned shield on each
player's position — never reaches Finished: every forced wave only
decrements a shield that is immediately re-collected, so elimination makes
no progress. -/
theorem C2_counterexample :
    advStart.gameStatus = GameStatus.playing ∧ 2 ≤ aliveCount advStart ∧
    advStart = applySteps advSetup initialGameState ∧
    ¬ reachesFinished advRun := by
  refine ⟨rfl, by decide, by decide, ?_⟩
  rintro ⟨k, hk⟩
  rw [advRun_playing k] at hk
  exact GameStatus.noConfusion hk

/-- Claim C2, amended: if no shields are collected between waves, the
session does terminate: from any Playing state with duplicate-free ids,
repeated waves (under any shuffle outcomes) reach Finished within
`potential s + 1` rounds, where `potential` counts the wave hits needed to
eliminate every alive participant. -/
theorem C2_wave_termination (σs : Nat → WaveChoice) (now : Nat) (s : GameState)
    (hperm : ∀ i l, ((σs i).sortR l).Perm l)
    (hnd : (s.players.map Player.id).Nodup)
    (hp : s.gameStatus = GameStatus.playing) :
    terminatesWithin σs now s (potential s + 1) :=
  terminate_aux (potential s) σs now s hperm hnd hp (le_refl _)

/-- Witness for the amended C2 theorem at the two-player session `sW3`. -/
theorem C2_wave_termination_witness :
    terminatesWithin (fun _ => waveId) 0 sW3 (potential sW3 + 1) :=
  C2_wave_termination (fun _ => waveId) 0 sW3 (fun _ l => List.Perm.refl l)
    (by decide) (by decide)

/-- Claim C3: a wave executed in a Playing session where at least two
participants are alive and every alive participant is shielded (the
shield-less eligible set is empty) force-selects one alive participant
(the random index into the shuffled alive list), decrements exactly that
participant's shield count by one, eliminates nobody, and leaves the
elimination sequence unchanged. -/
theorem C3_forced_wave (σ : WaveChoice) (now : Nat) (s : GameState)
    (hp : s.gameStatus = GameStatus.playing)
    (hnd : (s.players.map Player.id).Nodup)
    (hperm : ∀ l, (σ.sortR l).Perm l)
    (h2 : 2 ≤ aliveCount s)
    (hsh : ∀ p ∈ s.players, p.isAlive = true → 0 < p.shields) :
    ∃ t ∈ s.players.filter (fun p => p.isAlive),
      runArchivingWave σ now s = { s with
        currentRound := s.currentRound + 1,
        players := updPlayer s.players t.id
          (fun q => { q with shields := q.shields - 1 }) } ∧
      (runArchivingWave σ now s).eliminationOrder = s.eliminationOrder ∧
      aliveCount (runArchivingWave σ now s) = aliveCount s := by
  have helig : (s.players.filter (fun p => p.isAlive)).filter (fun p => p.shields == 0)
      = [] := by
    rw [List.filter_eq_nil_iff]
    intro p hpmem
    have h1 := List.mem_filter.mp hpmem
    have h2 := hsh p h1.1 h1.2
    simp only [beq_iff_eq]
    omega
  obtain ⟨hmem, hrec, helim, hcnt, _⟩ := wave_forced_facts hp hnd hperm h2 helig
  exact ⟨_, hmem, hrec, helim, hcnt⟩

/-- Witness for C3 at the freshly started two-player session `sW3` (both
participants hold the single starting shield). -/
theorem C3_forced_wave_witness :
    ∃ t ∈ sW3.players.filter (fun p => p.isAlive),
      runArchivingWave waveId 1000 sW3 = { sW3 with
        currentRound := sW3.currentRound + 1,
        players := updPlayer sW3.players t.id
          (fun q => { q with shields := q.shields - 1 }) } ∧
      (runArchivingWave waveId 1000 sW3).eliminationOrder = sW3.eliminationOrder ∧
      aliveCount (runArchivingWave waveId 1000 sW3) = aliveCount sW3 :=
  C3_forced_wave waveId 1000 sW3 (by decide) (by decide) (fun l => List.Perm.refl l)
    (by decide) (by decide)

/-- Claim C4: a wave executed in a Playing session with `n ≥ 2` alive
participants all holding 0 shields eliminates exactly `ceil30 n`
participants (`ceil30 n = ⌈n * 0.3⌉`, computed as `(3*n+9)/10`): the wave
appends exactly that many `killP`-marked entries (not alive, eliminated at
the new round number) to the elimination sequence and reduces the alive
count by the same amount. -/
theorem C4_wave_eliminations (σ : WaveChoice) (now : Nat) (s : GameState)
    (hp : s.gameStatus = GameStatus.playing)
    (hnd : (s.players.map Player.id).Nodup)
    (hperm : ∀ l, (σ.sortR l).Perm l)
    (h2 : 2 ≤ aliveCount s)
    (hz : ∀ p ∈ s.players, p.isAlive = true → p.shields = 0) :
    ∃ ts : List Player,
      ts.length = ceil30 (aliveCount s) ∧
      (runArchivingWave σ now s).eliminationOrder =
        s.eliminationOrder ++ ts.map (killP (s.currentRound + 1) now (s.startTime.getD 0)) ∧
      aliveCount (runArchivingWave σ now s) + ts.length = aliveCount s ∧
      (∀ t : Player,
        (killP (s.currentRound + 1) now (s.startTime.getD 0) t).isAlive = false ∧
        (killP (s.currentRound + 1) now (s.startTime.getD 0) t).eliminatedAt
          = some (s.currentRound + 1)) := by
  have hfe : (s.players.filter (fun p => p.isAlive)).filter (fun p => p.shields == 0)
      = s.players.filter (fun p => p.isAlive) := by
    rw [List.filter_eq_self]
    intro p hpmem
    have h1 := List.mem_filter.mp hpmem
    simp only [beq_iff_eq]
    exact hz p h1.1 h1.2
  have hne : (s.players.filter (fun p => p.isAlive)).filter (fun p => p.shields == 0)
      ≠ [] := by
    rw [hfe]
    intro hnil
    have : aliveCount s = 0 := by
      unfold aliveCount
      rw [hnil]
      rfl
    omega
  obtain ⟨ts, hlen, _, _, helim, hcnt, _, _, _, _, _⟩ := wave_normal hp hnd hperm h2 hne
  rw [hfe] at hlen
  have hlen2 : ts.length = ceil30 (aliveCount s) := by
    rw [hlen]
    have h1 : (s.players.filter (fun p => p.isAlive)).length = aliveCount s := rfl
    rw [h1]
    exact Nat.min_eq_left (Nat.le_of_lt (ceil30_lt h2))
  exact ⟨ts, hlen2, helim, hcnt, fun t => ⟨rfl, rfl⟩⟩

/-- Witness for C4 at `s10`, ten shield-less alive participants: exactly
`ceil30 10 = 3` are eliminated and 7 remain alive. -/
theorem C4_wave_eliminations_witness :
    (∃ ts : List Player,
      ts.length = ceil30 (aliveCount s10) ∧
      (runArchivingWave waveId 7 s10).eliminationOrder =
        s10.eliminationOrder ++ ts.map (killP (s10.currentRound + 1) 7 (s10.startTime.getD 0)) ∧
      aliveCount (runArchivingWave waveId 7 s10) + ts.length = aliveCount s10 ∧
      (∀ t : Player,
        (killP (s10.currentRound + 1) 7 (s10.startTime.getD 0) t).isAlive = false ∧
        (killP (s10.currentRound + 1) 7 (s10.startTime.getD 0) t).eliminatedAt
          = some (s10.currentRound + 1))) ∧
    ceil30 (aliveCount s10) = 3 ∧
    aliveCount (runArchivingWave waveId 7 s10) = 7 :=
  ⟨C4_wave_eliminations waveId 7 s10 (by decide) (by decide) (fun l => List.Perm.refl l)
      (by decide) (by decide),
   by decide, by decide⟩

/-- Claim C5: whenever a wave schedules a next wave, the scheduled delay is
`max (10000 - r * 1000) 3000` milliseconds where `r` is the incremented
round counter of the state the wave produced, and this formula yields the
delays 9000, 8000, 7000, 6000, 5000, 4000, 3000, 3000 for rounds 1–8. -/
theorem C5_wave_delay (σ : WaveChoice) (now : Nat) (s : GameState) (d : Int)
    (h : (runArchivingWaveFull σ now s).2 = some d) :
    d = max (10000 - (((runArchivingWaveFull σ now s).1.currentRound : Nat) : Int) * 1000) 3000 ∧
    (runArchivingWaveFull σ now s).1.currentRound = s.currentRound + 1 ∧
    (List.range 8).map (fun r => max (10000 - ((r + 1 : Nat) : Int) * 1000) 3000)
      = [9000, 8000, 7000, 6000, 5000, 4000, 3000, 3000] := by
  rcases wave_snd_some σ now s with hn | ⟨hs, hr⟩
  · rw [hn] at h
    exact absurd h (by simp)
  · rw [hs] at h
    rw [hr]
    exact ⟨(Option.some.inj h).symm, rfl, by decide⟩

/-- Witness for C5 at `sW3`: the first wave (round counter 1) schedules the
next wave 9000 milliseconds later. -/
theorem C5_wave_delay_witness :
    (9000 : Int)
        = max (10000 - (((runArchivingWaveFull waveId 5 sW3).1.currentRound : Nat) : Int) * 1000)
            3000 ∧
    (runArchivingWaveFull waveId 5 sW3).1.currentRound = sW3.currentRound + 1 ∧
    (List.range 8).map (fun r => max (10000 - ((r + 1 : Nat) : Int) * 1000) 3000)
      = [9000, 8000, 7000, 6000, 5000, 4000, 3000, 3000] :=
  C5_wave_delay waveId 5 sW3 9000 (by decide)

/-- Claim C6: after any sequence of handler and timer steps from the
initial state, every registered participant's shield count lies in `[0,3]`
(`shieldsOk` checks `shields ≤ 3`; shield counts are naturals, hence also
`≥ 0`): collection clamps at 3 and waves only subtract. -/
theorem C6_shield_bound (ts : List Step) :
    shieldsOk (applySteps ts initialGameState) = true := by
  rw [shieldsOk_iff]
  refine applySteps_shields_bound ts initialGameState ?_
  intro p hp
  exact absurd hp (List.not_mem_nil p)

/-- Claim C7, counterexample: a second `join-game` on an already registered
connection id overwrites the host's registry entry with `isHost = false`
(the handler recomputes `isHost` from `players.size == 0`, which is now
false), leaving a non-empty registry with zero hosts. -/
theorem C7_counterexample :
    (joinGame 1 "B" "g" 0 0 (joinGame 1 "A" "g" 0 0 initialGameState)).players ≠ [] ∧
    (joinGame 1 "B" "g" 0 0 (joinGame 1 "A" "g" 0 0 initialGameState)).players.countP
      (fun p => p.isHost) = 0 := by
  refine ⟨by decide, by decide⟩

/-- Claim C7, amended: restricted to join messages from fresh (not yet
registered) connection ids and arbitrary disconnects, the registry always
holds exactly one host when non-empty and zero hosts when empty, and after
any disconnect that leaves the registry non-empty some remaining
participant carries the host role. -/
theorem C7_host_invariant (s : GameState) (h : RegReachable s) :
    HostInv s ∧ (∀ sid, (disconnect sid s).players ≠ [] →
      ∃ p ∈ (disconnect sid s).players, p.isHost = true) := by
  refine ⟨(reg_hostInv s h).1, ?_⟩
  intro sid hne
  have h2 := (reg_hostInv _ (RegReachable.leave s sid h)).1
  unfold HostInv at h2
  rw [if_neg (by simpa using hne)] at h2
  have h3 : 0 < (disconnect sid s).players.countP (fun p => p.isHost) := by omega
  obtain ⟨p, hp, hph⟩ := List.countP_pos_iff.mp h3
  exact ⟨p, hp, hph⟩

/-- Witness for the amended C7 theorem: a single fresh join from the
initial state. -/
theorem C7_host_invariant_witness :
    HostInv (joinGame 1 "A" "g" 5 5 initialGameState) ∧
    (∀ sid, (disconnect sid (joinGame 1 "A" "g" 5 5 initialGameState)).players ≠ [] →
      ∃ p ∈ (disconnect sid (joinGame 1 "A" "g" 5 5 initialGameState)).players,
        p.isHost = true) :=
  C7_host_invariant _ (RegReachable.join initialGameState 1 "A" "g" 5 5 RegReachable.init rfl)

/-- Claim C8: the `player-move` handler leaves the state unchanged and
emits nothing exactly when its precondition fails — the sender is not
registered, not alive, or the session is not Playing (`moveAccepted`); an
accepted move always emits at least a game-state update. -/
theorem C8_move_noop (sid : Nat) (mx my : Int) (s : GameState) :
    playerMoveFull sid mx my s = (s, []) ↔ ¬ moveAccepted sid s := by
  unfold playerMoveFull moveAccepted
  cases hf : findPlayer s.players sid with
  | none => simp
  | some p =>
    dsimp only
    by_cases hc : p.isAlive = true ∧ s.gameStatus = GameStatus.playing
    · rw [if_pos hc]
      constructor
      · intro h
        exfalso
        have h2 := congrArg Prod.snd h
        revert h2
        split <;> simp
      · intro h
        exact absurd hc h
    · rw [if_neg hc]
      simp [hc]

/-- Claim C9, counterexample: the optimized server's `player-move` handler
does not update the position unconditionally — a move of distance exactly 5
(not exceeding the threshold), 50 ms after the last accepted update, leaves
the stored position untouched and queues nothing. -/
theorem C9_counterexample :
    (setPosition 50 3 4 { x := 0, y := 0, lastUpdate := 0 }).1.x = 0 ∧
    (setPosition 50 3 4 { x := 0, y := 0, lastUpdate := 0 }).1.y = 0 ∧
    (setPosition 50 3 4 { x := 0, y := 0, lastUpdate := 0 }).2 = false := by
  refine ⟨by decide, by decide, by decide⟩

/-- Claim C9, amended: for a `player-move` that passed the
exists/alive/Playing guard, the optimized server queues a batch update for
the participant exactly when the movement exceeds the 5-unit distance
threshold (squared: `25 < moved²`) or strictly more than 100 ms have
elapsed since the last accepted update; in exactly that case it also
writes the position and the timestamp, and a move below both thresholds
changes nothing and emits nothing. -/
theorem C9_setPosition (now : Nat) (mx my : Int) (c : MoveCtx) :
    ((setPosition now mx my c).2 = true ↔
      25 < (c.x - mx) * (c.x - mx) + (c.y - my) * (c.y - my) ∨
        100 < now - c.lastUpdate) ∧
    ((setPosition now mx my c).2 = true →
      (setPosition now mx my c).1 = { x := mx, y := my, lastUpdate := now }) ∧
    ((setPosition now mx my c).2 = false → (setPosition now mx my c).1 = c) := by
  unfold setPosition
  by_cases h : 25 < (c.x - mx) * (c.x - mx) + (c.y - my) * (c.y - my) ∨
      100 < now - c.lastUpdate
  · rw [if_pos h]
    exact ⟨⟨fun _ => h, fun _ => rfl⟩, fun _ => rfl, fun hf => Bool.noConfusion hf⟩
  · rw [if_neg h]
    exact ⟨⟨fun ht => Bool.noConfusion ht, fun hc => absurd hc h⟩,
      fun ht => Bool.noConfusion ht, fun _ => rfl⟩

/-- Claim C10: a wave executed in a Playing session with at least two
alive participants (duplicate-free ids) leaves at least one participant
alive — the normal path eliminates at most `ceil30 n < n` targets and the
forced path eliminates none — and whenever that wave finishes the game it
names a winner. -/
theorem C10_wave_survivor (σ : WaveChoice) (now : Nat) (s : GameState)
    (hp : s.gameStatus = GameStatus.playing)
    (hnd : (s.players.map Player.id).Nodup)
    (hperm : ∀ l, (σ.sortR l).Perm l)
    (h2 : 2 ≤ aliveCount s) :
    1 ≤ aliveCount (runArchivingWave σ now s) ∧
    ((runArchivingWave σ now s).gameStatus = GameStatus.finished →
      (runArchivingWave σ now s).winner ≠ none) := by
  by_cases helig :
      (s.players.filter (fun p => p.isAlive)).filter (fun p => p.shields == 0) = []
  · obtain ⟨_, _, _, hcnt, hstat⟩ :=
      @wave_forced_facts σ now s hp hnd hperm h2 helig
    refine ⟨by omega, ?_⟩
    intro hfin
    rw [hstat] at hfin
    exact GameStatus.noConfusion hfin
  · obtain ⟨ts, hlen, _, _, _, hcnt, _, _, _, hfin, hplay⟩ :=
      @wave_normal σ now s hp hnd hperm h2 helig
    have hlt : ts.length < aliveCount s := by
      have h1 := ceil30_lt h2
      have hmin : ts.length ≤ ceil30 (aliveCount s) := by
        rw [hlen]
        exact Nat.min_le_left _ _
      omega
    refine ⟨by omega, ?_⟩
    intro hf
    by_cases hcase : aliveCount s - ts.length ≤ 1
    · exact (hfin hcase).2
    · have hpl := hplay (by omega)
      rw [hpl] at hf
      exact GameStatus.noConfusion hf

/-- Witness for C10 at `s2z`: a wave over two shield-less participants
eliminates one, leaving one alive, and the game finishes with a winner. -/
theorem C10_wave_survivor_witness :
    1 ≤ aliveCount (runArchivingWave waveId 3 s2z) ∧
    ((runArchivingWave waveId 3 s2z).gameStatus = GameStatus.finished →
      (runArchivingWave waveId 3 s2z).winner ≠ none) :=
  C10_wave_survivor waveId 3 s2z (by decide) (by decide) (fun l => List.Perm.refl l)
    (by decide)

end FlagWars

